import Mathlib

/-!
Shallow embedding of the Sia `siatest` harness: the upload and download
monitors, the download-record consistency checks and the bounded polling
engine, together with proofs about the embedded operations.

Modelling conventions:
* Go `error` values are `Option Err` (`none` is the nil error).
* External collaborator calls (the storage service) are oracles passed in as
  arguments; calls that the harness repeats over time read from a stream
  `Nat → _` indexed by the number of service reads made so far, so the order
  of the reads is visible in the embedding.  Functions that read the stream
  also return the next unread index, making sequencing explicit.
* Go `float64` progress and redundancy values are embedded as `ℚ`; the
  harness only ever compares them, never computes with them beyond the
  redundancy target ratio.
* Go `uint64` sizes are embedded as `Nat`; byte slices as `List Nat`;
  `crypto.Hash` checksums as `Nat`, with the hash function an oracle.
-/

namespace Siatest

/-- Go errors from `github.com/NebulousLabs/errors`: a base error made with
`errors.New`, a context wrapper made with `errors.AddContext` on a non-nil
error, and the two formatted threshold errors built with `fmt.Errorf` in the
upload waits, which carry the target and the last observed value. -/
inductive Err where
  | new (s : String) : Err
  | ctx (s : String) (e : Err) : Err
  | progressErr (target observed : ℚ) : Err
  | redundancyErr (target observed : ℚ) : Err
deriving DecidableEq

/-- `errors.AddContext err s`: wraps a non-nil error with context, and
returns nil when `err` is nil (the documented behaviour of
`github.com/NebulousLabs/errors.AddContext`, relied on all over Sia in
`return errors.AddContext(err, ...)` tail positions). -/
def addContext : Option Err → String → Option Err
  | none, _ => none
  | some e, s => some (.ctx s e)

/-- `RemoteFile` from the harness: the sia path and the checksum copied from
the local file at upload time. -/
structure RemoteFile where
  siaPath : String
  checksum : Nat
deriving DecidableEq

/-- `LocalFile` from the harness: path and checksum.  The `fileName` field
stands for the `fileName()` method, whose body is not in the snapshot; it is
the base name of `path` and is carried explicitly here. -/
structure LocalFile where
  path : String
  fileName : String
  checksum : Nat
deriving DecidableEq

/-- The fields of `api.DownloadInfo` that the harness reads. -/
structure DownloadInfoRec where
  siaPath : String
  destination : String
  filesize : Nat
  length : Nat
  received : Nat
  totalDataTransferred : Nat
  completed : Bool
deriving DecidableEq

/-- The fields of `modules.FileInfo` that the harness reads. -/
structure FileInfoRec where
  siaPath : String
  filesize : Nat
  uploadProgress : ℚ
  redundancy : ℚ
deriving DecidableEq

/-- Outcome of one `Retry` run: the final error (`none` on success), how many
times the check was invoked, how many inter-attempt delays were taken, and
the total milliseconds slept. -/
structure RetryResult where
  result : Option Err
  calls : Nat
  delays : Nat
  sleptMs : Nat
deriving DecidableEq

/-- Modelled from the spec: the body of `Retry` is not in the snapshot, so
this follows §4.1 of the spec word for word.  `retryFrom i c k n` runs check
`c` starting at attempt index `k` with `n` attempts left, sleeping `i`
milliseconds after each failing attempt except the last, stopping at the
first success, and returning the error of the final attempt when all fail.
A zero budget (never used by the harness, which always passes 1000) makes no
call and reports a fixed error. -/
def retryFrom (i : Nat) (c : Nat → Option Err) : Nat → Nat → RetryResult
  | _, 0 => ⟨some (Err.new "retry: no attempts"), 0, 0, 0⟩
  | k, n + 1 =>
    match c k with
    | none => ⟨none, 1, 0, 0⟩
    | some e =>
      if n = 0 then ⟨some e, 1, 0, 0⟩
      else
        let r := retryFrom i c (k + 1) n
        ⟨r.result, r.calls + 1, r.delays + 1, r.sleptMs + i⟩

/-- Modelled from the spec: `Retry(maxAttempts, interval, check)` per §4.1,
with the check indexed by the attempt number so that state observed on later
attempts may differ. -/
def Retry (maxAttempts : Nat) (intervalMs : Nat) (c : Nat → Option Err) : RetryResult :=
  retryFrom intervalMs c 0 maxAttempts

theorem retryFrom_calls_le (i : Nat) (c : Nat → Option Err) :
    ∀ (n k : Nat), (retryFrom i c k n).calls ≤ n := by
  intro n
  induction n with
  | zero => intro k; simp [retryFrom]
  | succ m ih =>
    intro k
    cases hc : c k with
    | none => simp [retryFrom, hc]
    | some e =>
      by_cases hm : m = 0
      · subst hm; simp [retryFrom, hc]
      · have := ih (k + 1)
        simp only [retryFrom, hc]
        rw [if_neg hm]
        exact Nat.succ_le_succ this

theorem retryFrom_delays_add_one (i : Nat) (c : Nat → Option Err) :
    ∀ (n k : Nat), 1 ≤ n →
      (retryFrom i c k n).delays + 1 = (retryFrom i c k n).calls := by
  intro n
  induction n with
  | zero => intro k h; omega
  | succ m ih =>
    intro k _
    cases hc : c k with
    | none => simp [retryFrom, hc]
    | some e =>
      by_cases hm : m = 0
      · subst hm; simp [retryFrom, hc]
      · have := ih (k + 1) (by omega)
        simp only [retryFrom, hc]
        rw [if_neg hm]
        simpa using congrArg Nat.succ this

theorem retryFrom_sleptMs_eq (i : Nat) (c : Nat → Option Err) :
    ∀ (n k : Nat), (retryFrom i c k n).sleptMs = (retryFrom i c k n).delays * i := by
  intro n
  induction n with
  | zero => intro k; simp [retryFrom]
  | succ m ih =>
    intro k
    cases hc : c k with
    | none => simp [retryFrom, hc]
    | some e =>
      by_cases hm : m = 0
      · subst hm; simp [retryFrom, hc]
      · have := ih (k + 1)
        simp only [retryFrom, hc]
        rw [if_neg hm]
        simp [this, Nat.succ_mul]

/-- Unfolds one failing, non-final attempt of `retryFrom`. -/
theorem retryFrom_step_some (i : Nat) (c : Nat → Option Err) (k n : Nat) (e : Err)
    (hc : c k = some e) (hn : ¬ n = 0) :
    retryFrom i c k (n + 1) =
      ⟨(retryFrom i c (k + 1) n).result, (retryFrom i c (k + 1) n).calls + 1,
        (retryFrom i c (k + 1) n).delays + 1, (retryFrom i c (k + 1) n).sleptMs + i⟩ := by
  simp only [retryFrom, hc]
  rw [if_neg hn]

/-- When every attempt before the last fails, the run makes exactly `m + 1`
calls, takes `m` delays, and returns whatever the final attempt returned. -/
theorem retryFrom_all_fail (i : Nat) (c : Nat → Option Err) :
    ∀ (m k : Nat), (∀ j, j < m → c (k + j) ≠ none) →
      retryFrom i c k (m + 1) = ⟨c (k + m), m + 1, m, m * i⟩ := by
  intro m
  induction m with
  | zero =>
    intro k _
    cases hc : c k with
    | none => simp [retryFrom, hc]
    | some e => simp [retryFrom, hc]
  | succ m' ih =>
    intro k h
    have h0 : c k ≠ none := by simpa using h 0 (by omega)
    cases hc : c k with
    | none => exact absurd hc h0
    | some e =>
      have hrec := ih (k + 1) (by
        intro j hj
        have := h (j + 1) (by omega)
        have e2 : k + (j + 1) = k + 1 + j := by omega
        rwa [e2] at this)
      rw [retryFrom_step_some i c k (m' + 1) e hc (by omega), hrec]
      have e3 : k + 1 + m' = k + (m' + 1) := by omega
      simp [e3, Nat.succ_mul]

/-- The run succeeds exactly when some attempt within the budget succeeds and
all earlier attempts failed. -/
theorem retryFrom_success_iff (i : Nat) (c : Nat → Option Err) :
    ∀ (n k : Nat), (retryFrom i c k n).result = none ↔
      ∃ j, j < n ∧ c (k + j) = none ∧ ∀ m, m < j → c (k + m) ≠ none := by
  intro n
  induction n with
  | zero =>
    intro k
    simp [retryFrom]
  | succ m ih =>
    intro k
    cases hc : c k with
    | none =>
      constructor
      · intro _
        exact ⟨0, by omega, by simpa using hc, by intro j hj; omega⟩
      · intro _
        simp [retryFrom, hc]
    | some e =>
      by_cases hm : m = 0
      · subst hm
        constructor
        · intro h
          simp [retryFrom, hc] at h
        · rintro ⟨j, hj, hcj, _⟩
          have hj0 : j = 0 := by omega
          subst hj0
          simp [hc] at hcj
      · constructor
        · intro h
          have hrec : (retryFrom i c (k + 1) m).result = none := by
            simp only [retryFrom, hc] at h
            rw [if_neg hm] at h
            simpa using h
          obtain ⟨j, hj, hcj, hprev⟩ := (ih (k + 1)).mp hrec
          refine ⟨j + 1, by omega, ?_, ?_⟩
          · have e2 : k + (j + 1) = k + 1 + j := by omega
            rwa [e2]
          · intro v hv
            cases v with
            | zero => simpa using hc ▸ (by simp [hc] : c k ≠ none)
            | succ v' =>
              have := hprev v' (by omega)
              have e3 : k + (v' + 1) = k + 1 + v' := by omega
              rwa [e3]
        · rintro ⟨j, hj, hcj, hprev⟩
          cases j with
          | zero =>
            exfalso
            simp [hc] at hcj
          | succ j' =>
            have hrec : (retryFrom i c (k + 1) m).result = none := by
              apply (ih (k + 1)).mpr
              refine ⟨j', by omega, ?_, ?_⟩
              · have e2 : k + 1 + j' = k + (j' + 1) := by omega
                rw [e2]; exact hcj
              · intro v hv
                have := hprev (v + 1) (by omega)
                have e3 : k + (v + 1) = k + 1 + v := by omega
                rwa [e3] at this
            simp only [retryFrom, hc]
            rw [if_neg hm]
            simpa using hrec

/-- The linear scan in `Files`/`FileInfo`: first file whose sia path matches. -/
def findFile (siaPath : String) : List FileInfoRec → Option FileInfoRec
  | [] => none
  | f :: fs => if f.siaPath = siaPath then some f else findFile siaPath fs

/-- `TestNode.FileInfo`: `Files` forwards the service file list unchanged, and
`FileInfo` scans it, failing when the file is untracked.  The argument is the
outcome of the underlying `RenterFilesGet` call. -/
def FileInfo (files : Except Err (List FileInfoRec)) (rf : RemoteFile) :
    Except Err FileInfoRec :=
  match files with
  | .error e => .error e
  | .ok fs =>
    match findFile rf.siaPath fs with
    | some f => .ok f
    | none => .error (Err.new "file is not tracked by the renter")

/-- `FileInfo` against the `t`-th `RenterFilesGet` answer of a service whose
reported file list may change between reads. -/
def fileInfoAt (svc : Nat → Except Err (List FileInfoRec)) (rf : RemoteFile)
    (t : Nat) : Except Err FileInfoRec :=
  FileInfo (svc t) rf

/-- The scan in `DownloadInfo`: first download record matching both the sia
path and the local destination path. -/
def findDownload (siaPath dest : String) : List DownloadInfoRec → Option DownloadInfoRec
  | [] => none
  | d :: ds =>
    if siaPath = d.siaPath ∧ dest = d.destination then some d
    else findDownload siaPath dest ds

/-- `TestNode.DownloadInfo`.  The argument `rdq` is the outcome of the
`RenterDownloadsGet` call.  The three sanity checks thread the `err` variable
through `errors.AddContext`; that variable is nil at that point (the
`RenterDownloadsGet` error was returned early), so `addContext` keeps it
nil — exactly as the Go code behaves. -/
def DownloadInfo (rdq : Except Err (List DownloadInfoRec)) (lf : LocalFile)
    (rf : RemoteFile) : Option DownloadInfoRec × Option Err :=
  match rdq with
  | .error e => (none, some e)
  | .ok downloads =>
    match findDownload rf.siaPath lf.path downloads with
    | none => (none, some (Err.new "download info not found"))
    | some di =>
      let err0 : Option Err := none
      let err1 := if ¬ di.length = di.filesize then addContext err0 "filesize != length" else err0
      let err2 := if di.totalDataTransferred < di.received then
          addContext err1 "received > TotalDataTransfered" else err1
      let err3 := if di.completed ∧ ¬ di.received = di.length then
          addContext err2 "completed == true but received != length" else err2
      (some di, err3)

/-- Modelled from the spec: `LocalFile.checkIntegrity` (the integrity checker
of §4.2) is not in the snapshot.  `fs` maps a path to the readable file
content there, `hash` is the checksum function; verification fails when the
file cannot be read or the checksums differ. -/
def checkIntegrity (fs : String → Option (List Nat)) (hash : List Nat → Nat)
    (lf : LocalFile) : Option Err :=
  match fs lf.path with
  | none => some (Err.new "failed to read file")
  | some content =>
    if ¬ hash content = lf.checksum then some (Err.new "checksum mismatch") else none

/-- The polling closure inside `WaitForDownload`, applied to one
`RenterDownloadsGet` answer. -/
def waitForDownloadCheck (rdq : Except Err (List DownloadInfoRec)) (lf : LocalFile)
    (rf : RemoteFile) : Option Err :=
  match DownloadInfo rdq lf rf with
  | (_, some e) => some (Err.ctx "couldn\x27t retrieve DownloadInfo" e)
  | (none, none) => none
  | (some d, none) =>
    if d.completed then none else some (Err.new "download hasn\x27t finished yet")

/-- `TestNode.WaitForDownload`: retries the polling closure with the
1000 × 100ms budget over the stream of `RenterDownloadsGet` answers, then
verifies the checksum of the downloaded file. -/
def WaitForDownload (dls : Nat → Except Err (List DownloadInfoRec)) (lf : LocalFile)
    (rf : RemoteFile) (fs : String → Option (List Nat)) (hash : List Nat → Nat) :
    Option Err :=
  match (Retry 1000 100 fun k => waitForDownloadCheck (dls k) lf rf).result with
  | some e => some e
  | none => checkIntegrity fs hash lf

/-- `TestNode.DownloadByStream`.  `files` is the `RenterFilesGet` answer and
`fetch` the `RenterDownloadHTTPResponseGet` collaborator; on a successful
fetch the bytes are returned even when the checksum comparison fails. -/
def DownloadByStream (files : Except Err (List FileInfoRec))
    (fetch : String → Nat → Nat → Except Err (List Nat))
    (hash : List Nat → Nat) (rf : RemoteFile) : Option (List Nat) × Option Err :=
  match FileInfo files rf with
  | .error e => (none, some (Err.ctx "failed to retrieve FileInfo" e))
  | .ok fi =>
    match fetch rf.siaPath 0 fi.filesize with
    | .error e => (none, some e)
    | .ok data =>
      if ¬ rf.checksum = hash data then
        (some data, some (Err.new "downloaded bytes don\x27t match requested data"))
      else (some data, none)

/-- Modelled from the spec: the constant `SiaTestingDir` (the directory that
random download destinations are joined onto) is declared outside the
snapshot; its value is irrelevant to every claim. -/
def SiaTestingDir : String := "SiaTesting"

/-- The collaborators that `DownloadToDisk` consults: the `RenterFilesGet`
answer, the random destination file name drawn from `fastrand`, the
`RenterDownloadGet` submission outcome as a function of its arguments, and
the readable file contents used by the integrity check. -/
structure DiskEnv where
  files : Except Err (List FileInfoRec)
  destName : String
  downloadGet : String → String → Nat → Nat → Bool → Option Err
  fs : String → Option (List Nat)

/-- The `LocalFile` that `DownloadToDisk` builds for its chosen destination:
the joined destination path and the checksum copied from the remote file. -/
def destLocalFile (env : DiskEnv) (rf : RemoteFile) : LocalFile :=
  ⟨SiaTestingDir ++ "/" ++ env.destName, env.destName, rf.checksum⟩

/-- `TestNode.DownloadToDisk`. -/
def DownloadToDisk (env : DiskEnv) (hash : List Nat → Nat) (rf : RemoteFile)
    (async : Bool) : Option LocalFile × Option Err :=
  match FileInfo env.files rf with
  | .error e => (none, some (Err.ctx "failed to retrieve FileInfo" e))
  | .ok fi =>
    match env.downloadGet rf.siaPath (SiaTestingDir ++ "/" ++ env.destName) 0
        fi.filesize async with
    | some e => (none, some (Err.ctx "failed to download file" e))
    | none =>
      let lf := destLocalFile env rf
      if async then (some lf, none)
      else
        match checkIntegrity env.fs hash lf with
        | some e => (some lf, some (Err.ctx "downloaded file\x27s checksum doesn\x27t match" e))
        | none => (some lf, none)

/-- The `RemoteFile` that `Upload` builds: sia path from the local file name,
checksum copied from the local file. -/
def rfOf (lf : LocalFile) : RemoteFile :=
  ⟨lf.fileName, lf.checksum⟩

/-- The collaborators that the upload path consults: the outcome of
`NewFile` (modelled from the spec, its source is outside the snapshot) as a
function of the requested size, the `RenterUploadPost` submission outcome as
a function of its arguments, and the stream of `RenterFilesGet` answers. -/
structure UploadEnv where
  newFile : Nat → Except Err LocalFile
  uploadPost : String → String → Nat → Nat → Option Err
  svc : Nat → Except Err (List FileInfoRec)

/-- `TestNode.Upload`, threading the index of the next `RenterFilesGet`
read; the tracking confirmation consumes one read. -/
def Upload (env : UploadEnv) (lf : LocalFile) (d p : Nat) (t0 : Nat) :
    Option RemoteFile × Option Err × Nat :=
  match env.uploadPost lf.path ("/" ++ lf.fileName) d p with
  | some e => (none, some e, t0)
  | none =>
    match fileInfoAt env.svc (rfOf lf) t0 with
    | .error e =>
      (some (rfOf lf), some (Err.ctx "uploaded file is not tracked by the renter" e), t0 + 1)
    | .ok _ => (some (rfOf lf), none, t0 + 1)

/-- `TestNode.UploadNewFile`. -/
def UploadNewFile (env : UploadEnv) (filesize d p : Nat) (t0 : Nat) :
    Option RemoteFile × Option Err × Nat :=
  match env.newFile filesize with
  | .error e => (none, some (Err.ctx "failed to create file" e), t0)
  | .ok lf =>
    match Upload env lf d p t0 with
    | (rf, some e, t1) => (rf, some (Err.ctx "failed to start upload" e), t1)
    | (rf, none, t1) => (rf, none, t1)

/-- The polling closure inside `WaitForUploadProgress`, applied to the `t`-th
`RenterFilesGet` answer. -/
def progressCheck (svc : Nat → Except Err (List FileInfoRec)) (rf : RemoteFile)
    (target : ℚ) (t : Nat) : Option Err :=
  match fileInfoAt svc rf t with
  | .error e => some (Err.ctx "couldn\x27t retrieve FileInfo" e)
  | .ok f =>
    if f.uploadProgress < target then some (Err.progressErr target f.uploadProgress)
    else none

/-- The polling closure inside `WaitForUploadRedundancy`. -/
def redundancyCheck (svc : Nat → Except Err (List FileInfoRec)) (rf : RemoteFile)
    (target : ℚ) (t : Nat) : Option Err :=
  match fileInfoAt svc rf t with
  | .error e => some (Err.ctx "couldn\x27t retrieve FileInfo" e)
  | .ok f =>
    if f.redundancy < target then some (Err.redundancyErr target f.redundancy)
    else none

/-- `TestNode.WaitForUploadProgress`: an untracked file fails before any
polling; otherwise the closure is retried with the 1000 × 100ms budget.  The
second component is the index of the next unread `RenterFilesGet` answer, so
the guard consumes read `t0` and poll `k` consumes read `t0 + 1 + k`. -/
def WaitForUploadProgress (svc : Nat → Except Err (List FileInfoRec))
    (rf : RemoteFile) (target : ℚ) (t0 : Nat) : Option Err × Nat :=
  match fileInfoAt svc rf t0 with
  | .error _ => (some (Err.new "file is not tracked by renter"), t0 + 1)
  | .ok _ =>
    let r := Retry 1000 100 fun k => progressCheck svc rf target (t0 + 1 + k)
    (r.result, t0 + 1 + r.calls)

/-- `TestNode.WaitForUploadRedundancy`: same shape with the redundancy
threshold. -/
def WaitForUploadRedundancy (svc : Nat → Except Err (List FileInfoRec))
    (rf : RemoteFile) (target : ℚ) (t0 : Nat) : Option Err × Nat :=
  match fileInfoAt svc rf t0 with
  | .error _ => (some (Err.new "file is not tracked by renter"), t0 + 1)
  | .ok _ =>
    let r := Retry 1000 100 fun k => redundancyCheck svc rf target (t0 + 1 + k)
    (r.result, t0 + 1 + r.calls)

/-- `TestNode.UploadNewFileBlocking`: upload, then wait for progress `1`,
then wait for redundancy `(d + p) / d`. -/
def UploadNewFileBlocking (env : UploadEnv) (filesize d p : Nat) (t0 : Nat) :
    Option RemoteFile × Option Err × Nat :=
  match UploadNewFile env filesize d p t0 with
  | (rf, some e, t1) => (rf, some e, t1)
  | (none, none, t1) => (none, none, t1)
  | (some rf, none, t1) =>
    match WaitForUploadProgress env.svc rf 1 t1 with
    | (some e, t2) => (some rf, some e, t2)
    | (none, t2) =>
      match WaitForUploadRedundancy env.svc rf ((↑(d + p) : ℚ) / (↑d : ℚ)) t2 with
      | (r, t3) => (some rf, r, t3)

/-- A local download destination used as concrete input. -/
def lfD : LocalFile := ⟨"dl-dest", "dl-dest", 1⟩

/-- A remote file used as concrete input. -/
def rfD : RemoteFile := ⟨"file", 1⟩

/-- A download record whose sia path matches `rfD` but whose destination is
not `lfD.path`, so the `(local, remote)` pair of `lfD`/`rfD` has no matching
record. -/
def drecOther : DownloadInfoRec := ⟨"file", "other-dest", 1, 1, 1, 1, true⟩

/-- A download record matching `lfD`/`rfD` that violates the §3 invariant
`receivedBytes ≤ totalBytesTransferred`: received 10, transferred 5. -/
def drecBad : DownloadInfoRec := ⟨"file", "dl-dest", 10, 10, 10, 5, false⟩

/-- C1.  When no service-reported download record matches both the remote
path and the local destination (here: one record is reported, with the right
sia path but a different destination), `DownloadInfo` does NOT return an
absent record with a nil error: it returns the error
"download info not found".  This contradicts the claim, the function's own
doc comment and `WaitForDownload`'s "without an error" contract. -/
theorem downloadInfo_absent_pair_returns_error :
    DownloadInfo (Except.ok [drecOther]) lfD rfD =
      (none, some (Err.new "download info not found")) := by
  rfl

/-- C3.  A matching record with `receivedBytes = 10` and
`totalBytesTransferred = 5` violates a §3 invariant, yet `DownloadInfo`
returns it with a NIL error: the sanity checks thread
`errors.AddContext` over an error that is nil at that point, and
`AddContext` keeps nil errors nil, so no consistency error can ever be
reported.  This contradicts the claim and the checks' own comments. -/
theorem downloadInfo_inconsistent_record_nil_error :
    DownloadInfo (Except.ok [drecBad]) lfD rfD = (some drecBad, none) := by
  rfl

/-- C10.  `DownloadInfo` never pairs an absent record with a nil error: when
the returned error is nil the record is present; consequently the branch of
`WaitForDownload`'s polling closure that succeeds on a nil record is
unreachable — every success of the closure exhibits a present, completed
record. -/
theorem downloadInfo_nil_error_implies_record (rdq : Except Err (List DownloadInfoRec))
    (lf : LocalFile) (rf : RemoteFile) (h : (DownloadInfo rdq lf rf).2 = none) :
    (DownloadInfo rdq lf rf).1.isSome = true ∧
      (waitForDownloadCheck rdq lf rf = none →
        ∃ rec, (DownloadInfo rdq lf rf).1 = some rec ∧ rec.completed = true) := by
  cases rdq with
  | error e => simp [DownloadInfo] at h
  | ok downloads =>
    cases hf : findDownload rf.siaPath lf.path downloads with
    | none => simp [DownloadInfo, hf] at h
    | some di =>
      have hval : DownloadInfo (Except.ok downloads) lf rf = (some di, none) := by
        simp [DownloadInfo, hf, addContext]
      constructor
      · rw [hval]; rfl
      · intro hcheck
        simp only [waitForDownloadCheck, hval] at hcheck
        by_cases hdc : di.completed = true
        · exact ⟨di, by rw [hval], hdc⟩
        · simp [hdc] at hcheck

/-- A completed, internally consistent download record matching `lfD`/`rfD`. -/
def drecDone : DownloadInfoRec := ⟨"file", "dl-dest", 4, 4, 4, 4, true⟩

/-- Witness for C10 at a service state reporting one completed matching
record, where `DownloadInfo`'s returned error is nil. -/
theorem downloadInfo_nil_error_implies_record_witness :
    (DownloadInfo (Except.ok [drecDone]) lfD rfD).1.isSome = true ∧
      (waitForDownloadCheck (Except.ok [drecDone]) lfD rfD = none →
        ∃ rec, (DownloadInfo (Except.ok [drecDone]) lfD rfD).1 = some rec ∧
          rec.completed = true) :=
  downloadInfo_nil_error_implies_record (Except.ok [drecDone]) lfD rfD (by rfl)

/-- C2.  When the service never reports a matching download record,
`WaitForDownload` does NOT succeed on the first poll: every poll fails with
the wrapped "download info not found" error from `DownloadInfo`, the
1000-attempt budget is exhausted, and that error is returned — contradicting
the claim (and the function's own "return instantly without an error" doc)
for the absent-record case.  The completed-record success path and the final
integrity check behave as the claim states. -/
theorem waitForDownload_absent_record_exhausts_budget
    (fs : String → Option (List Nat)) (hash : List Nat → Nat) :
    WaitForDownload (fun _ => Except.ok []) lfD rfD fs hash =
      some (Err.ctx "couldn\x27t retrieve DownloadInfo"
        (Err.new "download info not found")) := by
  have hone : waitForDownloadCheck (Except.ok ([] : List DownloadInfoRec)) lfD rfD =
      some (Err.ctx "couldn\x27t retrieve DownloadInfo"
        (Err.new "download info not found")) := rfl
  have hall := retryFrom_all_fail 100
      (fun _ => waitForDownloadCheck (Except.ok ([] : List DownloadInfoRec)) lfD rfD)
      999 0 (by intro j hj; simp [hone])
  simp only [WaitForDownload, Retry]
  rw [show (1000 : Nat) = 999 + 1 from by norm_num]
  rw [hall]
  simp [hone]

/-- C4.  When the transport fetch succeeds, `DownloadByStream` returns the
fetched bytes, succeeds exactly when their hash equals the remote identity's
expected checksum, and reports a mismatch as the data-integrity error
"downloaded bytes don't match requested data" rather than a transport
error. -/
theorem downloadByStream_checksum_gate (files : Except Err (List FileInfoRec))
    (fetch : String → Nat → Nat → Except Err (List Nat)) (hash : List Nat → Nat)
    (rf : RemoteFile) (fi : FileInfoRec) (data : List Nat)
    (h1 : FileInfo files rf = Except.ok fi)
    (h2 : fetch rf.siaPath 0 fi.filesize = Except.ok data) :
    (DownloadByStream files fetch hash rf).1 = some data ∧
      ((DownloadByStream files fetch hash rf).2 = none ↔ hash data = rf.checksum) ∧
      (¬ hash data = rf.checksum →
        (DownloadByStream files fetch hash rf).2 =
          some (Err.new "downloaded bytes don\x27t match requested data")) := by
  by_cases hc : rf.checksum = hash data
  · simp [DownloadByStream, h1, h2, hc]
  · simp [DownloadByStream, h1, h2, hc, Ne.symm hc]

/-- A tracked file of size 2 used as concrete input. -/
def fiW : FileInfoRec := ⟨"f", 2, 1, 1⟩

/-- A checksum oracle used as concrete input: the sum of the bytes. -/
def hashW : List Nat → Nat := fun l => l.foldl (· + ·) 0

/-- A remote file whose expected checksum matches `hashW [5, 6]`. -/
def rfW : RemoteFile := ⟨"f", 11⟩

/-- Witness for C4: a fetch that returns `[5, 6]` against expected checksum
`11` verifies and yields a nil error. -/
theorem downloadByStream_checksum_gate_witness :
    (DownloadByStream (Except.ok [fiW]) (fun _ _ _ => Except.ok [5, 6]) hashW rfW).2 =
      none :=
  ((downloadByStream_checksum_gate (Except.ok [fiW]) (fun _ _ _ => Except.ok [5, 6])
    hashW rfW fiW [5, 6] rfl rfl).2.1).mpr rfl

/-- C8.  When the upload submission succeeds but the service does not report
the file as tracked, `Upload` returns the untracked-file error together with
the non-nil remote identity, whose checksum is copied from the local file. -/
theorem upload_untracked_returns_identity (env : UploadEnv) (lf : LocalFile)
    (d p t0 : Nat) (e : Err)
    (h1 : env.uploadPost lf.path ("/" ++ lf.fileName) d p = none)
    (h2 : fileInfoAt env.svc (rfOf lf) t0 = Except.error e) :
    Upload env lf d p t0 =
      (some (rfOf lf),
        some (Err.ctx "uploaded file is not tracked by the renter" e), t0 + 1) ∧
      (rfOf lf).checksum = lf.checksum := by
  constructor
  · simp [Upload, h1, h2]
  · rfl

/-- A local file used as concrete input on the upload side. -/
def lfU : LocalFile := ⟨"local/name", "name", 5⟩

/-- An upload environment whose submission succeeds while the service tracks
no file at all. -/
def envU : UploadEnv :=
  ⟨fun _ => Except.ok lfU, fun _ _ _ _ => none, fun _ => Except.ok []⟩

/-- Witness for C8: the untracked upload returns the identity with the copied
checksum alongside the wrapped untracked error. -/
theorem upload_untracked_returns_identity_witness :
    Upload envU lfU 1 2 0 =
      (some (rfOf lfU),
        some (Err.ctx "uploaded file is not tracked by the renter"
          (Err.new "file is not tracked by the renter")), 1) ∧
      (rfOf lfU).checksum = lfU.checksum :=
  upload_untracked_returns_identity envU lfU 1 2 0
    (Err.new "file is not tracked by the renter") rfl rfl

/-- C7.  When the lookup and the download submission succeed: with
`async = true` the local identity is returned immediately with a nil error
and the result does not depend on the readable file contents at all (no
integrity verification); with `async = false` the integrity checker of §4.2
runs and a mismatch is returned as a wrapped error together with — not
instead of — the local identity. -/
theorem downloadToDisk_async_and_sync (env : DiskEnv) (hash : List Nat → Nat)
    (rf : RemoteFile) (fi : FileInfoRec) (async : Bool)
    (h1 : FileInfo env.files rf = Except.ok fi)
    (h2 : env.downloadGet rf.siaPath (SiaTestingDir ++ "/" ++ env.destName) 0
      fi.filesize async = none) :
    DownloadToDisk env hash rf async =
      (some (destLocalFile env rf),
        if async then none
        else Option.map (Err.ctx "downloaded file\x27s checksum doesn\x27t match")
          (checkIntegrity env.fs hash (destLocalFile env rf))) ∧
      (async = true → ∀ fs2,
        DownloadToDisk (DiskEnv.mk env.files env.destName env.downloadGet fs2)
            hash rf async =
          (some (destLocalFile env rf), none)) := by
  constructor
  · cases async with
    | true => simp [DownloadToDisk, h1, h2]
    | false =>
      cases hci : checkIntegrity env.fs hash (destLocalFile env rf) with
      | none => simp [DownloadToDisk, h1, h2, hci]
      | some e => simp [DownloadToDisk, h1, h2, hci]
  · intro ha fs2
    subst ha
    simp [DownloadToDisk, destLocalFile, h1, h2]

/-- The readable contents at every path: bytes summing to 11, matching
`rfW`'s checksum but not `rfD7`'s below. -/
def fsW : String → Option (List Nat) := fun _ => some [5, 6]

/-- A remote file whose expected checksum does not match `hashW [5, 6]`. -/
def rfD7 : RemoteFile := ⟨"f", 3⟩

/-- A disk environment whose lookup and submission both succeed. -/
def envD : DiskEnv :=
  ⟨Except.ok [fiW], "dest", fun _ _ _ _ _ => none, fsW⟩

/-- Witness for C7: asynchronously the identity comes back with a nil error;
synchronously the same download fails the integrity check and the error is
returned together with the identity. -/
theorem downloadToDisk_async_and_sync_witness :
    DownloadToDisk envD hashW rfD7 true = (some (destLocalFile envD rfD7), none) ∧
      DownloadToDisk envD hashW rfD7 false =
        (some (destLocalFile envD rfD7),
          some (Err.ctx "downloaded file\x27s checksum doesn\x27t match"
            (Err.new "checksum mismatch"))) := by
  constructor
  · have h := (downloadToDisk_async_and_sync envD hashW rfD7 fiW true rfl rfl).1
    simpa using h
  · have h := (downloadToDisk_async_and_sync envD hashW rfD7 fiW false rfl rfl).1
    simpa [checkIntegrity, fsW, hashW, destLocalFile, envD, rfD7] using h

theorem waitForUploadProgress_tracked (svc : Nat → Except Err (List FileInfoRec))
    (rf : RemoteFile) (target : ℚ) (t0 : Nat) (fi0 : FileInfoRec)
    (h0 : fileInfoAt svc rf t0 = Except.ok fi0) :
    WaitForUploadProgress svc rf target t0 =
      ((Retry 1000 100 fun k => progressCheck svc rf target (t0 + 1 + k)).result,
        t0 + 1 + (Retry 1000 100 fun k => progressCheck svc rf target (t0 + 1 + k)).calls) := by
  simp [WaitForUploadProgress, h0]

theorem waitForUploadRedundancy_tracked (svc : Nat → Except Err (List FileInfoRec))
    (rf : RemoteFile) (target : ℚ) (t0 : Nat) (fi0 : FileInfoRec)
    (h0 : fileInfoAt svc rf t0 = Except.ok fi0) :
    WaitForUploadRedundancy svc rf target t0 =
      ((Retry 1000 100 fun k => redundancyCheck svc rf target (t0 + 1 + k)).result,
        t0 + 1 + (Retry 1000 100 fun k => redundancyCheck svc rf target (t0 + 1 + k)).calls) := by
  simp [WaitForUploadRedundancy, h0]

theorem progressCheck_none_iff (svc : Nat → Except Err (List FileInfoRec))
    (rf : RemoteFile) (target : ℚ) (t : Nat) :
    progressCheck svc rf target t = none ↔
      ∃ fi, fileInfoAt svc rf t = Except.ok fi ∧ target ≤ fi.uploadProgress := by
  cases hfi : fileInfoAt svc rf t with
  | error e => simp [progressCheck, hfi]
  | ok fi =>
    by_cases hlt : fi.uploadProgress < target
    · simp [progressCheck, hfi, hlt, not_le.mpr hlt]
    · simp [progressCheck, hfi, hlt, not_lt.mp hlt]

theorem redundancyCheck_none_iff (svc : Nat → Except Err (List FileInfoRec))
    (rf : RemoteFile) (target : ℚ) (t : Nat) :
    redundancyCheck svc rf target t = none ↔
      ∃ fi, fileInfoAt svc rf t = Except.ok fi ∧ target ≤ fi.redundancy := by
  cases hfi : fileInfoAt svc rf t with
  | error e => simp [redundancyCheck, hfi]
  | ok fi =>
    by_cases hlt : fi.redundancy < target
    · simp [redundancyCheck, hfi, hlt, not_le.mpr hlt]
    · simp [redundancyCheck, hfi, hlt, not_lt.mp hlt]

/-- C6.  `WaitForUploadProgress` and `WaitForUploadRedundancy`:
(1) an untracked file fails at once with a fixed error, consuming only the
single guard read — no polling;
(2) for a tracked file the wait succeeds exactly when some poll among the
1000 budgeted attempts meets the threshold, every earlier poll having
failed;
(3) a poll meets the threshold exactly when the service reports the file
with progress (resp. redundancy) at least the target;
(4) when every one of the 1000 polls observes the file below the target, the
budget is exhausted and the returned error carries the target together with
the last observed progress (resp. redundancy) value. -/
theorem waitForUpload_poll_spec (svc : Nat → Except Err (List FileInfoRec))
    (rf : RemoteFile) (target : ℚ) (t0 : Nat) (f : Nat → FileInfoRec) :
    (∀ e, fileInfoAt svc rf t0 = Except.error e →
      WaitForUploadProgress svc rf target t0 =
        (some (Err.new "file is not tracked by renter"), t0 + 1) ∧
      WaitForUploadRedundancy svc rf target t0 =
        (some (Err.new "file is not tracked by renter"), t0 + 1)) ∧
    (∀ fi0, fileInfoAt svc rf t0 = Except.ok fi0 →
      (((WaitForUploadProgress svc rf target t0).1 = none ↔
        ∃ k, k < 1000 ∧ progressCheck svc rf target (t0 + 1 + k) = none ∧
          ∀ m, m < k → progressCheck svc rf target (t0 + 1 + m) ≠ none) ∧
      ((WaitForUploadRedundancy svc rf target t0).1 = none ↔
        ∃ k, k < 1000 ∧ redundancyCheck svc rf target (t0 + 1 + k) = none ∧
          ∀ m, m < k → redundancyCheck svc rf target (t0 + 1 + m) ≠ none))) ∧
    (∀ t, (progressCheck svc rf target t = none ↔
        ∃ fi, fileInfoAt svc rf t = Except.ok fi ∧ target ≤ fi.uploadProgress) ∧
      (redundancyCheck svc rf target t = none ↔
        ∃ fi, fileInfoAt svc rf t = Except.ok fi ∧ target ≤ fi.redundancy)) ∧
    (∀ fi0, fileInfoAt svc rf t0 = Except.ok fi0 →
      (∀ k, k < 1000 → fileInfoAt svc rf (t0 + 1 + k) = Except.ok (f k)) →
      (((∀ k, k < 1000 → (f k).uploadProgress < target) →
        WaitForUploadProgress svc rf target t0 =
          (some (Err.progressErr target ((f 999).uploadProgress)), t0 + 1 + 1000)) ∧
      ((∀ k, k < 1000 → (f k).redundancy < target) →
        WaitForUploadRedundancy svc rf target t0 =
          (some (Err.redundancyErr target ((f 999).redundancy)), t0 + 1 + 1000)))) := by
  refine ⟨?_, ?_, ?_, ?_⟩
  · intro e he
    constructor
    · simp [WaitForUploadProgress, he]
    · simp [WaitForUploadRedundancy, he]
  · intro fi0 h0
    constructor
    · rw [waitForUploadProgress_tracked svc rf target t0 fi0 h0]
      simp only [Retry]
      constructor
      · intro h
        obtain ⟨j, hj, hc, hprev⟩ :=
          (retryFrom_success_iff 100 (fun k => progressCheck svc rf target (t0 + 1 + k))
            1000 0).mp (by simpa using h)
        exact ⟨j, hj, by simpa using hc, fun m hm => by simpa using hprev m hm⟩
      · rintro ⟨j, hj, hc, hprev⟩
        have := (retryFrom_success_iff 100
            (fun k => progressCheck svc rf target (t0 + 1 + k)) 1000 0).mpr
          ⟨j, hj, by simpa using hc, fun m hm => by simpa using hprev m hm⟩
        simpa using this
    · rw [waitForUploadRedundancy_tracked svc rf target t0 fi0 h0]
      simp only [Retry]
      constructor
      · intro h
        obtain ⟨j, hj, hc, hprev⟩ :=
          (retryFrom_success_iff 100 (fun k => redundancyCheck svc rf target (t0 + 1 + k))
            1000 0).mp (by simpa using h)
        exact ⟨j, hj, by simpa using hc, fun m hm => by simpa using hprev m hm⟩
      · rintro ⟨j, hj, hc, hprev⟩
        have := (retryFrom_success_iff 100
            (fun k => redundancyCheck svc rf target (t0 + 1 + k)) 1000 0).mpr
          ⟨j, hj, by simpa using hc, fun m hm => by simpa using hprev m hm⟩
        simpa using this
  · intro t
    exact ⟨progressCheck_none_iff svc rf target t, redundancyCheck_none_iff svc rf target t⟩
  · intro fi0 h0 hall
    constructor
    · intro hlt
      rw [waitForUploadProgress_tracked svc rf target t0 fi0 h0]
      have hfail : ∀ j, j < 999 →
          (fun k => progressCheck svc rf target (t0 + 1 + k)) (0 + j) ≠ none := by
        intro j hj
        simp [progressCheck, hall j (by omega), hlt j (by omega)]
      have hstep := retryFrom_all_fail 100
        (fun k => progressCheck svc rf target (t0 + 1 + k)) 999 0 hfail
      simp only [Retry]
      rw [show (1000 : Nat) = 999 + 1 from by norm_num, hstep]
      simp [progressCheck, hall 999 (by omega), hlt 999 (by omega)]
    · intro hlt
      rw [waitForUploadRedundancy_tracked svc rf target t0 fi0 h0]
      have hfail : ∀ j, j < 999 →
          (fun k => redundancyCheck svc rf target (t0 + 1 + k)) (0 + j) ≠ none := by
        intro j hj
        simp [redundancyCheck, hall j (by omega), hlt j (by omega)]
      have hstep := retryFrom_all_fail 100
        (fun k => redundancyCheck svc rf target (t0 + 1 + k)) 999 0 hfail
      simp only [Retry]
      rw [show (1000 : Nat) = 999 + 1 from by norm_num, hstep]
      simp [redundancyCheck, hall 999 (by omega), hlt 999 (by omega)]

/-- A tracked file stuck at progress and redundancy one half. -/
def fiHalf : FileInfoRec := ⟨"f", 0, 1/2, 1/2⟩

/-- A service forever reporting `fiHalf` only. -/
def csvc : Nat → Except Err (List FileInfoRec) := fun _ => Except.ok [fiHalf]

/-- A remote file tracked by `csvc`. -/
def rfW6 : RemoteFile := ⟨"f", 0⟩

/-- Witness for C6: against a service stuck at one half, both waits for
target 2 exhaust the 1001 reads (guard plus 1000 polls) and report the last
observed value. -/
theorem waitForUpload_poll_spec_witness :
    WaitForUploadProgress csvc rfW6 2 0 = (some (Err.progressErr 2 (1/2)), 1001) ∧
      WaitForUploadRedundancy csvc rfW6 2 0 = (some (Err.redundancyErr 2 (1/2)), 1001) := by
  have h := (waitForUpload_poll_spec csvc rfW6 2 0 fun _ => fiHalf).2.2.2 fiHalf rfl
    (fun k _ => rfl)
  constructor
  · have := h.1 (fun k _ => by norm_num [fiHalf])
    simpa [fiHalf] using this
  · have := h.2 (fun k _ => by norm_num [fiHalf])
    simpa [fiHalf] using this

/-- C9.  `Retry` with a budget of one attempt invokes the check exactly once
and takes no inter-attempt delay, whatever the check returns; in general the
check runs at most `maxAttempts` times and exactly the non-final calls — all
of which failed — are followed by a delay. -/
theorem retry_single_attempt_and_budget (i : Nat) (c : Nat → Option Err) (n : Nat)
    (h : 1 ≤ n) :
    (Retry 1 i c).calls = 1 ∧ (Retry 1 i c).delays = 0 ∧ (Retry 1 i c).sleptMs = 0 ∧
      (Retry n i c).calls ≤ n ∧
      (Retry n i c).delays + 1 = (Retry n i c).calls := by
  have hd := retryFrom_delays_add_one i c 1 0 (by omega)
  have hc1 := retryFrom_calls_le i c 1 0
  have hs := retryFrom_sleptMs_eq i c 1 0
  have hcalls : (Retry 1 i c).calls = 1 := by unfold Retry; omega
  have hdel : (Retry 1 i c).delays = 0 := by unfold Retry; omega
  refine ⟨hcalls, hdel, ?_, retryFrom_calls_le i c n 0, retryFrom_delays_add_one i c n 0 h⟩
  unfold Retry at hs hdel ⊢
  rw [hs, hdel]
  simp

/-- Witness for C9 at budget 3 and an always-succeeding check. -/
theorem retry_single_attempt_and_budget_witness :
    (Retry 1 100 fun _ => (none : Option Err)).calls = 1 ∧
      (Retry 1 100 fun _ => (none : Option Err)).delays = 0 ∧
      (Retry 1 100 fun _ => (none : Option Err)).sleptMs = 0 ∧
      (Retry 3 100 fun _ => (none : Option Err)).calls ≤ 3 ∧
      (Retry 3 100 fun _ => (none : Option Err)).delays + 1 =
        (Retry 3 100 fun _ => (none : Option Err)).calls :=
  retry_single_attempt_and_budget 100 (fun _ => none) 3 (by omega)

/-- C5.  `UploadNewFileBlocking` succeeds exactly when, in this order: the
local file of the requested size is created, its upload succeeds (including
the tracking confirmation), the wait for progress `1` starting right after
the upload's service reads succeeds, and the wait for redundancy
`(d + p) / d` starting where the progress wait stopped reading succeeds. -/
theorem uploadNewFileBlocking_steps_iff (env : UploadEnv) (filesize d p t0 : Nat) :
    (UploadNewFileBlocking env filesize d p t0).2.1 = none ↔
      ∃ lf, env.newFile filesize = Except.ok lf ∧
        (Upload env lf d p t0).2.1 = none ∧
        (WaitForUploadProgress env.svc (rfOf lf) 1 ((Upload env lf d p t0).2.2)).1 = none ∧
        (WaitForUploadRedundancy env.svc (rfOf lf) ((↑(d + p) : ℚ) / (↑d : ℚ))
          ((WaitForUploadProgress env.svc (rfOf lf) 1 ((Upload env lf d p t0).2.2)).2)).1 =
            none := by
  cases hnf : env.newFile filesize with
  | error e =>
    simp [UploadNewFileBlocking, UploadNewFile, hnf]
  | ok lf =>
    cases hup : env.uploadPost lf.path ("/" ++ lf.fileName) d p with
    | some e =>
      have hU : Upload env lf d p t0 = (none, some e, t0) := by simp [Upload, hup]
      simp [UploadNewFileBlocking, UploadNewFile, hnf, hU]
    | none =>
      cases hfi : fileInfoAt env.svc (rfOf lf) t0 with
      | error e =>
        have hU : Upload env lf d p t0 =
            (some (rfOf lf),
              some (Err.ctx "uploaded file is not tracked by the renter" e), t0 + 1) := by
          simp [Upload, hup, hfi]
        simp [UploadNewFileBlocking, UploadNewFile, hnf, hU]
      | ok fi0 =>
        have hU : Upload env lf d p t0 = (some (rfOf lf), none, t0 + 1) := by
          simp [Upload, hup, hfi]
        rcases hW : WaitForUploadProgress env.svc (rfOf lf) 1 (t0 + 1) with ⟨w1, t2⟩
        cases w1 with
        | some e =>
          simp [UploadNewFileBlocking, UploadNewFile, hnf, hU, hW]
        | none =>
          rcases hR : WaitForUploadRedundancy env.svc (rfOf lf)
              ((↑(d + p) : ℚ) / (↑d : ℚ)) t2 with ⟨r1, t3⟩
          cases r1 with
          | some e =>
            simp [UploadNewFileBlocking, UploadNewFile, hnf, hU, hW, hR]
          | none =>
            simp [UploadNewFileBlocking, UploadNewFile, hnf, hU, hW, hR]

end Siatest
